import Mathlib

set_option maxRecDepth 8000

/-!
Verification of the client-side ingestion engine of the YanheKt-AI
repository (src/lib/ingestion.ts, src/components/Snackbar.tsx, src/App.tsx).

The TypeScript source is shallowly embedded.  Network interaction is
modelled by an environment of scripted responses; a run of startIngestion
is then the deterministic trace of issued HTTP requests, upload-progress
callbacks, server-stage callbacks, sleep counts and the final outcome of
the returned promise.  The four concurrent workers of the uploader drain a
single FIFO queue of indices; the multiset of requests, the sequence of
reported progress values and the fail-fast behaviour are those of the
drain order, which is what the trace records.  URL absolutization via
joinUrl is elided: download links are carried verbatim as opaque strings.
-/

/-- Segment count computed by startIngestion
(source: Math.ceil of blob size over part size). -/
def totalParts (S P : Nat) : Nat := (S + P - 1) / P

/-- First byte offset of 1-based segment i (source: (i - 1) * partSize). -/
def segStart (P i : Nat) : Nat := (i - 1) * P

/-- One-past-last byte offset of 1-based segment i
(source: Math.min of i * partSize and blob size). -/
def segStop (S P i : Nat) : Nat := min (i * P) S

/-- The byte range sliced for segment i: the interval of offsets
from segStart to segStop, as startIngestion slices the blob. -/
def segRange (S P i : Nat) : Finset Nat := Finset.Ico (segStart P i) (segStop S P i)

/-- One HTTP request issued by startIngestion, with the data the engine
puts in it. -/
inductive Req
  | init
  | segment (uploadId : String) (idx : Nat) (start : Nat) (stop : Nat)
  | complete (uploadId : String)
  | status (uploadId : String)
  deriving DecidableEq

/-- The segment request for 1-based index i: a POST of the sliced byte range. -/
def segReq (S P : Nat) (uid : String) (i : Nat) : Req :=
  Req.segment uid i (segStart P i) (segStop S P i)

def isSegmentReq : Req → Bool
  | Req.segment _ _ _ _ => true
  | _ => false

def isCompleteReq : Req → Bool
  | Req.complete _ => true
  | _ => false

/-- Whether the request is issued with an AbortController that is added to
the shared controllers set.  In the source only the segment fetches pass a
signal; the init, complete and status fetches are issued without one. -/
def registersController : Req → Bool
  | Req.segment _ _ _ _ => true
  | Req.init => false
  | Req.complete _ => false
  | Req.status _ => false

/-- The cancel closure sets the aborted flag and calls abort on every
controller in the shared set, so an in-flight request is aborted by cancel
exactly when its controller was registered there. -/
def abortedByCancel (r : Req) : Bool := registersController r

/-- Trace of one uploadOne retry loop: attempts made, 400ms sleeps taken,
and whether the segment was acknowledged. -/
structure RetryRes where
  attempts : Nat
  delays400 : Nat
  success : Bool
  deriving DecidableEq

/-- The while loop of uploadOne.  The first argument tells whether the
k-th attempt (0-based) succeeds; the fuel is the remaining value of the
tries counter before the decrementing test, the other arguments count the
attempts and sleeps so far.  A failed attempt with tries already at zero
rethrows; otherwise the worker sleeps 400ms and retries. -/
def uploadOneAux (att : Nat → Bool) : Nat → Nat → Nat → RetryRes
  | 0, k, d => ⟨k, d, true⟩
  | t + 1, k, d =>
    if att k then ⟨k + 1, d, true⟩
    else if t = 0 then ⟨k + 1, d, false⟩
    else uploadOneAux att t (k + 1) (d + 1)

/-- uploadOne enters its retry loop with tries = 3. -/
def uploadOneRes (att : Nat → Bool) : RetryRes := uploadOneAux att 3 0 0

/-- Outcome of processing one segment index. -/
inductive SegResult
  | ok
  | segErr
  | abortErr
  deriving DecidableEq

/-- One call of uploadOne for index i: the aborted flag is checked before
anything else and raises AbortError without issuing a request; otherwise
the retry loop issues one identical segment request per attempt. -/
def uploadOneRun (aborted : Bool) (S P : Nat) (uid : String) (att : Nat → Bool)
    (i : Nat) : List Req × SegResult × Nat :=
  if aborted then ([], SegResult.abortErr, 0)
  else
    let r := uploadOneRes att
    (List.replicate r.attempts (segReq S P uid i),
     if r.success then SegResult.ok else SegResult.segErr, r.delays400)

/-- Trace of the segment phase: requests, progress callbacks, outcome. -/
structure SegTrace where
  reqs : List Req
  progress : List Rat
  result : SegResult
  deriving DecidableEq

/-- The workers draining the index queue.  After each acknowledged segment
the uploaded counter is incremented and onUploadProgress is called with
uploaded divided by total; a failed or aborted segment stops the operation
(the rejection propagates through the awaited workers). -/
def runSegments (aborted : Bool) (S P : Nat) (uid : String) (att : Nat → Nat → Bool)
    (total : Nat) : List Nat → Nat → SegTrace
  | [], _ => ⟨[], [], SegResult.ok⟩
  | i :: rest, uploaded =>
    let u := uploadOneRun aborted S P uid (att i) i
    match u.2.1 with
    | SegResult.ok =>
      let t := runSegments aborted S P uid att total rest (uploaded + 1)
      ⟨u.1 ++ t.reqs, (((uploaded + 1 : Nat) : Rat) / (total : Rat)) :: t.progress,
       t.result⟩
    | r => ⟨u.1, [], r⟩

/-- Number of segments acknowledged before the first permanently failed
index, for a given queue of indices. -/
def ackedCount (att : Nat → Nat → Bool) : List Nat → Nat
  | [] => 0
  | i :: rest => if (uploadOneRes (att i)).success then ackedCount att rest + 1 else 0

/-- A response of the status endpoint.  The progress field models the
already-coerced finite number the handler passes on. -/
structure StatusResp where
  stage : String
  progress : Rat
  downloadUrl : Option String
  message : Option String
  deriving DecidableEq

/-- Outcome of the polling loop. -/
inductive PollResult
  | done (downloadUrl : Option String)
  | failed (msg : String)
  | abortErr
  | pending
  deriving DecidableEq

/-- Trace of the polling loop: status requests issued, stage callbacks
made, 1000ms sleeps taken, outcome. -/
structure PollTrace where
  reqs : List Req
  stages : List (String × Rat)
  sleeps1000 : Nat
  result : PollResult
  deriving DecidableEq

/-- The three sentinel stage values of the poll loop. -/
def isTerminalStage (s : String) : Bool :=
  s = "DONE" || s = "FAILED" || s = "UNKNOWN"

/-- The body of the status-polling loop of startIngestion, run against a
scripted list of responses.  Every observed stage is forwarded to
onServerStage; DONE resolves with the carried link, FAILED and UNKNOWN
reject with the message built by the source, any other stage sleeps
1000ms and polls again. -/
def pollGo (uid : String) : List StatusResp → PollTrace
  | [] => ⟨[], [], 0, PollResult.pending⟩
  | r :: rest =>
    if r.stage = "DONE" then
      ⟨[Req.status uid], [(r.stage, r.progress)], 0, PollResult.done r.downloadUrl⟩
    else if r.stage = "FAILED" || r.stage = "UNKNOWN" then
      ⟨[Req.status uid], [(r.stage, r.progress)], 0,
       PollResult.failed ("server stage: " ++ r.stage ++ " " ++ r.message.getD "")⟩
    else
      let t := pollGo uid rest
      ⟨Req.status uid :: t.reqs, (r.stage, r.progress) :: t.stages,
       t.sleeps1000 + 1, t.result⟩

/-- The polling loop checks the aborted flag before each fetch and raises
AbortError when it is set. -/
def pollLoop (aborted : Bool) (uid : String) (rs : List StatusResp) : PollTrace :=
  if aborted then ⟨[], [], 0, PollResult.abortErr⟩ else pollGo uid rs

/-- Outcome of the promise returned by startIngestion. -/
inductive RunResult
  | ok (uploadId : Option String) (downloadUrl : Option String)
  | failed (msg : String)
  | abortErr
  | pending
  deriving DecidableEq

/-- Full trace of one startIngestion run. -/
structure RunTrace where
  reqs : List Req
  progress : List Rat
  stages : List (String × Rat)
  sleeps1000 : Nat
  result : RunResult
  deriving DecidableEq

/-- Scripted response of the init call (POST /api/ingestions). -/
structure InitResp where
  ok : Bool
  uploadId : Option String
  existsFlag : Bool
  downloadUrl : Option String
  deriving DecidableEq

/-- Result of preflightIngestion as consumed by startIngestion. -/
inductive PreflightResp
  | found (objectId : String) (downloadUrl : Option String) (rawUrl : Option String)
  | notFound (objectId : String) (uploadId : Option String)
  deriving DecidableEq

/-- Scripted remote behaviour for one run: the optional preflight result
handed in by the caller, the init response, whether the complete call
succeeds, whether attempt k of segment i succeeds, and the status
responses. -/
structure Env where
  preflightResult : Option PreflightResp
  initResp : InitResp
  completeOk : Bool
  segAttempt : Nat → Nat → Bool
  statusResps : List StatusResp

/-- JS truthiness fallback on strings: the first operand if it is a
nonempty string, otherwise the second. -/
def jsOr (a b : Option String) : Option String :=
  match a with
  | some s => if s = "" then b else some s
  | none => b

/-- Segment upload, completion call and status polling, entered once an
uploadId is known (reqs0 holds the init request when one was issued). -/
def runWithUploadId (aborted : Bool) (S P : Nat) (env : Env) (reqs0 : List Req)
    (uid : String) : RunTrace :=
  let total := totalParts S P
  let seg := runSegments aborted S P uid env.segAttempt total (List.range' 1 total) 0
  match seg.result with
  | SegResult.ok =>
    let reqs1 := reqs0 ++ seg.reqs ++ [Req.complete uid]
    if env.completeOk then
      let pt := pollLoop aborted uid env.statusResps
      ⟨reqs1 ++ pt.reqs, seg.progress, pt.stages, pt.sleeps1000,
       match pt.result with
       | PollResult.done dl => RunResult.ok (some uid) dl
       | PollResult.failed m => RunResult.failed m
       | PollResult.abortErr => RunResult.abortErr
       | PollResult.pending => RunResult.pending⟩
    else ⟨reqs1, seg.progress, [], 0, RunResult.failed "complete failed"⟩
  | SegResult.segErr =>
    ⟨reqs0 ++ seg.reqs, seg.progress, [], 0, RunResult.failed "segment failed"⟩
  | SegResult.abortErr =>
    ⟨reqs0 ++ seg.reqs, seg.progress, [], 0, RunResult.abortErr⟩

/-- One run of startIngestion.  Branch A returns the preflight link when
the caller passed an exists preflight result; branch B reuses a nonempty
preflight uploadId or issues the init call (whose response may itself be
an exists short-circuit, reported as stage EXISTS, or may lack an
uploadId, which is an error); then segments, completion and polling. -/
def startIngestionRun (S P : Nat) (aborted : Bool) (env : Env) : RunTrace :=
  match env.preflightResult with
  | some (PreflightResp.found _ dl raw) => ⟨[], [], [], 0, RunResult.ok none (jsOr dl raw)⟩
  | pf =>
    let preUid := match pf with
      | some (PreflightResp.notFound _ (some u)) => u
      | _ => ""
    if preUid = "" then
      if env.initResp.ok = false then ⟨[Req.init], [], [], 0, RunResult.failed "init failed"⟩
      else if env.initResp.existsFlag then
        ⟨[Req.init], [], [("EXISTS", 1)], 0, RunResult.ok none env.initResp.downloadUrl⟩
      else
        match env.initResp.uploadId with
        | none => ⟨[Req.init], [], [], 0, RunResult.failed "server did not return uploadId"⟩
        | some u =>
          if u = "" then
            ⟨[Req.init], [], [], 0, RunResult.failed "server did not return uploadId"⟩
          else runWithUploadId aborted S P env [Req.init] u
    else runWithUploadId aborted S P env [] preUid

/-- Waiting sub-kind of the task snackbar state. -/
inductive WaitKind
  | check
  | download
  | upload
  | transcode
  | server
  deriving DecidableEq

/-- Error sub-kind of the task snackbar state. -/
inductive ErrKind
  | download
  | upload
  | transcode
  | cancelled
  deriving DecidableEq

/-- The externally visible state of one task (TaskSnackbarState). -/
inductive TaskState
  | waiting (kind : WaitKind) (label : Option String)
  | downloading (progress : Rat)
  | uploading (progress : Rat)
  | transcoding (progress : Rat)
  | finished (blobUrl : String)
  | error (kind : ErrKind) (message : String)
  deriving DecidableEq

/-- The onServerStage handler installed by startServerPipeline: the state
written for one reported stage, or none when the handler writes nothing
for that stage. -/
def pipelineStageState (stage : String) (prog : Rat) : Option TaskState :=
  if stage = "QUEUED" then some (TaskState.waiting WaitKind.server (some "排队中"))
  else if stage = "MERGING" || stage = "TRANSCODING" then some (TaskState.transcoding prog)
  else if stage = "DONE" then some (TaskState.transcoding 1)
  else none

/-- The state written by startServerPipeline once the startIngestion
promise settles: finished with the returned link, Error cancelled on
AbortError, the fixed transcode error message on any other rejection. -/
def pipelineFinalState : RunResult → Option TaskState
  | RunResult.ok _ dl => some (TaskState.finished (dl.getD ""))
  | RunResult.failed _ => some (TaskState.error ErrKind.transcode "服务器处理失败")
  | RunResult.abortErr => some (TaskState.error ErrKind.cancelled "已取消")
  | RunResult.pending => none

/-- The task states observed from the server-stage callbacks and the
promise settlement of one run, in order. -/
def statesAfterUpload (S P : Nat) (env : Env) : List TaskState :=
  let t := startIngestionRun S P false env
  t.stages.filterMap (fun e => pipelineStageState e.1 e.2)
    ++ (pipelineFinalState t.result).toList

/-- Handling of an exists preflight result by the TaskSnackbar run
function: finished with the first available link, none set when both
links are missing (the thrown error is swallowed by the outer catch). -/
def onPreflightExists (dl raw : Option String) : Option TaskState :=
  let link := dl.getD (raw.getD "")
  if link = "" then none else some (TaskState.finished link)

/-- Lookup in the stage registry of App.tsx (a map keyed by course
title). -/
def getStage : List (String × String) → String → Option String
  | [], _ => none
  | e :: rest, t => if e.1 = t then some e.2 else getStage rest t

/-- Write-through update of the stage registry. -/
def setStage : List (String × String) → String → String → List (String × String)
  | [], t, s => [(t, s)]
  | e :: rest, t, s => if e.1 = t then (t, s) :: rest else e :: setStage rest t s

/-- handleStageChange of App.tsx: an entry already holding DONE is left
untouched, every other report overwrites the entry for its title. -/
def handleStageChange (m : List (String × String)) (title stage : String) :
    List (String × String) :=
  if getStage m title = some "DONE" then m else setStage m title stage

/-- Concrete scripted environments used by the closed instances below. -/
def envPreflightHit : Env :=
  ⟨some (PreflightResp.found "o1" (some "http://h/api/download/a") none),
   ⟨true, none, false, none⟩, true, fun _ _ => true, []⟩

def envAllFail : Env :=
  ⟨none, ⟨true, some "u", false, none⟩, true, fun _ _ => false, []⟩

def envCancel : Env :=
  ⟨none, ⟨true, some "u", false, none⟩, true, fun _ _ => true,
   [⟨"QUEUED", 0, none, none⟩, ⟨"DONE", 1, some "d", none⟩]⟩

def envBoom : Env :=
  ⟨none, ⟨true, some "u", false, none⟩, true, fun _ _ => true,
   [⟨"FAILED", 0, none, some "boom"⟩]⟩

def envScripted : Env :=
  ⟨none, ⟨true, some "u", false, none⟩, true, fun _ _ => true,
   [⟨"QUEUED", 0, none, none⟩, ⟨"MERGING", 0, none, none⟩,
    ⟨"TRANSCODING", 3 / 10, none, none⟩, ⟨"TRANSCODING", 9 / 10, none, none⟩,
    ⟨"DONE", 1, some "d", none⟩]⟩

def envEmptyPayload : Env :=
  ⟨none, ⟨true, some "u", false, none⟩, true, fun _ _ => true,
   [⟨"QUEUED", 0, none, none⟩, ⟨"DONE", 1, some "d", none⟩]⟩

lemma totalParts_mul_ge (S P : Nat) (hP : 0 < P) : S ≤ totalParts S P * P := by
  unfold totalParts
  have e := Nat.div_add_mod (S + P - 1) P
  have hr : (S + P - 1) % P < P := Nat.mod_lt _ hP
  rw [mul_comm]
  revert e hr
  generalize P * ((S + P - 1) / P) = a
  generalize (S + P - 1) % P = r
  intro e hr
  omega

lemma totalParts_mul_lt (S P : Nat) (hP : 0 < P) : totalParts S P * P < S + P := by
  unfold totalParts
  have e := Nat.div_add_mod (S + P - 1) P
  have hr : (S + P - 1) % P < P := Nat.mod_lt _ hP
  rw [mul_comm]
  revert e hr
  generalize P * ((S + P - 1) / P) = a
  generalize (S + P - 1) % P = r
  intro e hr
  omega

lemma totalParts_eq_ceil (S P : Nat) (hP : 0 < P) :
    (totalParts S P : Int) = Int.ceil ((S : Rat) / (P : Rat)) := by
  have h1 := totalParts_mul_ge S P hP
  have h2 := totalParts_mul_lt S P hP
  have hP' : (0 : Rat) < (P : Rat) := by exact_mod_cast hP
  symm
  rw [Int.ceil_eq_iff]
  constructor
  · rw [lt_div_iff₀ hP']
    push_cast
    have h2' : ((totalParts S P : Rat)) * (P : Rat) < (S : Rat) + (P : Rat) := by
      exact_mod_cast h2
    linarith
  · rw [div_le_iff₀ hP']
    push_cast
    exact_mod_cast h1

lemma segRange_index {S P i x : Nat} (hP : 0 < P) (hi : 1 ≤ i)
    (hx : x ∈ segRange S P i) : i = x / P + 1 := by
  rw [segRange, Finset.mem_Ico, segStart, segStop, lt_min_iff] at hx
  obtain ⟨h1, h2, _⟩ := hx
  have ha : i - 1 ≤ x / P := (Nat.le_div_iff_mul_le hP).mpr h1
  have hb : x / P < i := (Nat.div_lt_iff_lt_mul hP).mpr h2
  omega

lemma mem_segRange_self {S P x : Nat} (hP : 0 < P) (hx : x < S) :
    x ∈ segRange S P (x / P + 1) := by
  have hr : x % P < P := Nat.mod_lt _ hP
  have h1 : (x / P + 1 - 1) * P ≤ x := by
    simpa using Nat.div_mul_le_self x P
  have h2 : x < (x / P + 1) * P := by
    have h3 : x < P * (x / P) + P := by
      conv_lhs => rw [← Nat.div_add_mod x P]
      exact Nat.add_lt_add_left hr _
    calc x < P * (x / P) + P := h3
    _ = (x / P + 1) * P := by ring
  rw [segRange, Finset.mem_Ico, segStart, segStop, lt_min_iff]
  exact ⟨h1, h2, hx⟩

lemma segRange_biUnion (S P : Nat) (hP : 0 < P) :
    (Finset.Icc 1 (totalParts S P)).biUnion (segRange S P) = Finset.range S := by
  ext x
  simp only [Finset.mem_biUnion, Finset.mem_Icc, Finset.mem_range]
  constructor
  · rintro ⟨i, _, hx⟩
    rw [segRange, Finset.mem_Ico, segStop, lt_min_iff] at hx
    exact hx.2.2
  · intro hx
    refine ⟨x / P + 1, ⟨Nat.le_add_left 1 _, ?_⟩, mem_segRange_self hP hx⟩
    have h1 := totalParts_mul_ge S P hP
    have h2 : x < totalParts S P * P := lt_of_lt_of_le hx h1
    have h3 := (Nat.div_lt_iff_lt_mul hP).mpr h2
    omega

lemma segRange_disjoint (S P : Nat) (hP : 0 < P) {i j : Nat}
    (hi : 1 ≤ i) (hj : 1 ≤ j) (hij : i ≠ j) :
    Disjoint (segRange S P i) (segRange S P j) := by
  rw [Finset.disjoint_left]
  intro x hxi hxj
  exact hij ((segRange_index hP hi hxi).trans (segRange_index hP hj hxj).symm)

lemma uploadOneRun_reqs (S P : Nat) (uid : String) (att : Nat → Bool) (i : Nat) :
    ∀ r ∈ (uploadOneRun false S P uid att i).1, r = segReq S P uid i := by
  intro r hr
  simp only [uploadOneRun, if_neg Bool.false_ne_true] at hr
  exact List.eq_of_mem_replicate hr

/-- Claim C1: for every payload size S and part size P greater than zero,
startIngestion computes the segment count as the ceiling of S over P, each
attempt for index i uploads exactly the byte range from (i - 1) * P to the
minimum of i * P and S, and over the indices 1..N these ranges are
pairwise disjoint with union exactly the offsets below S. -/
theorem segmentation_correct (S P : Nat) (hP : 0 < P) :
    ((totalParts S P : Int) = Int.ceil ((S : Rat) / (P : Rat))) ∧
    ((Finset.Icc 1 (totalParts S P)).biUnion (segRange S P) = Finset.range S) ∧
    (∀ i ∈ Finset.Icc 1 (totalParts S P), ∀ j ∈ Finset.Icc 1 (totalParts S P),
        i ≠ j → Disjoint (segRange S P i) (segRange S P j)) ∧
    (∀ uid att i, ∀ r ∈ (uploadOneRun false S P uid att i).1, r = segReq S P uid i) := by
  refine ⟨totalParts_eq_ceil S P hP, segRange_biUnion S P hP, ?_, ?_⟩
  · intro i hi j hj hij
    rw [Finset.mem_Icc] at hi hj
    exact segRange_disjoint S P hP hi.1 hj.1 hij
  · intro uid att i
    exact uploadOneRun_reqs S P uid att i

/-- Closed instance of claim C1 at payload size 5 and part size 2. -/
theorem segmentation_correct_witness :
    0 < 2 ∧
    (((totalParts 5 2 : Int) = Int.ceil ((5 : Rat) / (2 : Rat))) ∧
    ((Finset.Icc 1 (totalParts 5 2)).biUnion (segRange 5 2) = Finset.range 5) ∧
    (∀ i ∈ Finset.Icc 1 (totalParts 5 2), ∀ j ∈ Finset.Icc 1 (totalParts 5 2),
        i ≠ j → Disjoint (segRange 5 2 i) (segRange 5 2 j)) ∧
    (∀ uid att i, ∀ r ∈ (uploadOneRun false 5 2 uid att i).1, r = segReq 5 2 uid i)) :=
  ⟨by decide, segmentation_correct 5 2 (by decide)⟩

lemma isTerminalStage_false {s : String} (h : isTerminalStage s = false) :
    ¬ s = "DONE" ∧ ¬ s = "FAILED" ∧ ¬ s = "UNKNOWN" := by
  simp only [isTerminalStage, Bool.or_eq_false_iff, decide_eq_false_iff_not] at h
  exact ⟨h.1.1, h.1.2, h.2⟩

lemma pollGo_nonterminal_cons (uid : String) (q : StatusResp) (rs : List StatusResp)
    (h : isTerminalStage q.stage = false) :
    pollGo uid (q :: rs) =
      ⟨Req.status uid :: (pollGo uid rs).reqs,
       (q.stage, q.progress) :: (pollGo uid rs).stages,
       (pollGo uid rs).sleeps1000 + 1, (pollGo uid rs).result⟩ := by
  obtain ⟨h1, h2, h3⟩ := isTerminalStage_false h
  simp [pollGo, h1, h2, h3]

lemma pollGo_skipIntermediate (uid : String) (pre tail : List StatusResp)
    (hpre : ∀ q ∈ pre, isTerminalStage q.stage = false) :
    pollGo uid (pre ++ tail) =
      ⟨pre.map (fun _ => Req.status uid) ++ (pollGo uid tail).reqs,
       pre.map (fun q => (q.stage, q.progress)) ++ (pollGo uid tail).stages,
       (pollGo uid tail).sleeps1000 + pre.length, (pollGo uid tail).result⟩ := by
  induction pre with
  | nil => simp
  | cons q qs ih =>
    have hq : isTerminalStage q.stage = false := hpre q (List.mem_cons_self q qs)
    have ih' := ih (fun r hr => hpre r (List.mem_cons_of_mem q hr))
    rw [List.cons_append, pollGo_nonterminal_cons uid q (qs ++ tail) hq, ih']
    simp only [List.map_cons, List.length_cons, List.cons_append]
    congr 1


/-- Claim C6: for every scripted sequence of status responses, the polling
loop resolves exactly at the first response whose stage is DONE, rejects
exactly at the first response whose stage is FAILED or UNKNOWN (with the
message string the source builds), and on any other stage (an unrecognized
one such as FOO included) it records the observation as an intermediate
one without failing and keeps polling the remaining script after one more
fixed-interval sleep. -/
theorem poll_loop_correct (uid : String) (pre : List StatusResp) (r : StatusResp)
    (rest : List StatusResp)
    (hpre : ∀ q ∈ pre, isTerminalStage q.stage = false) :
    (r.stage = "DONE" →
      pollGo uid (pre ++ r :: rest) =
        ⟨pre.map (fun _ => Req.status uid) ++ [Req.status uid],
         pre.map (fun q => (q.stage, q.progress)) ++ [(r.stage, r.progress)],
         pre.length, PollResult.done r.downloadUrl⟩) ∧
    (r.stage = "FAILED" ∨ r.stage = "UNKNOWN" →
      pollGo uid (pre ++ r :: rest) =
        ⟨pre.map (fun _ => Req.status uid) ++ [Req.status uid],
         pre.map (fun q => (q.stage, q.progress)) ++ [(r.stage, r.progress)],
         pre.length,
         PollResult.failed ("server stage: " ++ r.stage ++ " " ++ r.message.getD "")⟩) ∧
    (isTerminalStage r.stage = false →
      pollGo uid (pre ++ r :: rest) =
        ⟨pre.map (fun _ => Req.status uid) ++ Req.status uid :: (pollGo uid rest).reqs,
         pre.map (fun q => (q.stage, q.progress))
           ++ (r.stage, r.progress) :: (pollGo uid rest).stages,
         (pollGo uid rest).sleeps1000 + 1 + pre.length,
         (pollGo uid rest).result⟩) := by
  refine ⟨?_, ?_, ?_⟩
  · intro hd
    rw [pollGo_skipIntermediate uid pre (r :: rest) hpre]
    simp [pollGo, hd]
  · intro hf
    rw [pollGo_skipIntermediate uid pre (r :: rest) hpre]
    rcases hf with hf | hf
    · simp [pollGo, hf]
    · simp [pollGo, hf]
  · intro hn
    rw [pollGo_skipIntermediate uid pre (r :: rest) hpre,
        pollGo_nonterminal_cons uid r rest hn]

/-- Closed instance of claim C6: one unrecognized stage FOO followed by
DONE. -/
theorem poll_loop_correct_witness :
    pollGo "u" [⟨"FOO", 0, none, none⟩, ⟨"DONE", 1, some "d", none⟩] =
      ⟨[Req.status "u", Req.status "u"], [("FOO", 0), ("DONE", 1)], 1,
       PollResult.done (some "d")⟩ :=
  (poll_loop_correct "u" [⟨"FOO", 0, none, none⟩] ⟨"DONE", 1, some "d", none⟩ []
    (by decide)).1 rfl

/-- Claim C2: when the caller hands startIngestion a preflight result with
exists true, the run issues no request at all (in particular zero segment
uploads and zero completion calls), the promise resolves at once with the
server-provided link, and the snackbar run function moves the task
directly to Finished carrying that link. -/
theorem preflight_exists_skips_upload (S P : Nat) (env : Env) (oid url : String)
    (raw : Option String)
    (hpf : env.preflightResult = some (PreflightResp.found oid (some url) raw))
    (hurl : url ≠ "") :
    (startIngestionRun S P false env).reqs = [] ∧
    (startIngestionRun S P false env).reqs.countP isSegmentReq = 0 ∧
    (startIngestionRun S P false env).reqs.countP isCompleteReq = 0 ∧
    (startIngestionRun S P false env).result = RunResult.ok none (some url) ∧
    onPreflightExists (some url) raw = some (TaskState.finished url) := by
  have hrun : startIngestionRun S P false env = ⟨[], [], [], 0, RunResult.ok none (some url)⟩ := by
    rw [startIngestionRun, hpf]
    simp [jsOr, hurl]
  rw [hrun]
  refine ⟨rfl, rfl, rfl, rfl, ?_⟩
  simp [onPreflightExists, hurl]

/-- Closed instance of claim C2 on a concrete preflight-hit environment. -/
theorem preflight_exists_skips_upload_witness :
    (startIngestionRun 100 8 false envPreflightHit).reqs = [] ∧
    (startIngestionRun 100 8 false envPreflightHit).reqs.countP isSegmentReq = 0 ∧
    (startIngestionRun 100 8 false envPreflightHit).reqs.countP isCompleteReq = 0 ∧
    (startIngestionRun 100 8 false envPreflightHit).result =
      RunResult.ok none (some "http://h/api/download/a") ∧
    onPreflightExists (some "http://h/api/download/a") none =
      some (TaskState.finished "http://h/api/download/a") :=
  preflight_exists_skips_upload 100 8 envPreflightHit "o1" "http://h/api/download/a" none
    rfl (by decide)

lemma runSegments_progress (S P : Nat) (uid : String) (att : Nat → Nat → Bool)
    (total : Nat) (l : List Nat) (u : Nat) :
    (runSegments false S P uid att total l u).progress =
      (List.range' (u + 1) (ackedCount att l)).map
        (fun j => ((j : Nat) : Rat) / (total : Rat)) := by
  induction l generalizing u with
  | nil => simp [runSegments, ackedCount]
  | cons i rest ih =>
    by_cases h : (uploadOneRes (att i)).success
    · simp only [runSegments, uploadOneRun, ackedCount, h, Bool.false_eq_true, if_false,
        if_true]
      rw [ih (u + 1), List.range'_succ]
      simp
    · simp only [runSegments, uploadOneRun, ackedCount, h, Bool.false_eq_true, if_false]
      simp [h]

lemma ackedCount_le (att : Nat → Nat → Bool) (l : List Nat) :
    ackedCount att l ≤ l.length := by
  induction l with
  | nil => simp [ackedCount]
  | cons i rest ih =>
    by_cases h : (uploadOneRes (att i)).success
    · simp only [ackedCount, h, if_true, List.length_cons]
      omega
    · simp [ackedCount, h]

/-- Claim C3: for an upload with at least one segment, the values passed
to onUploadProgress are exactly the acknowledged count over N after each
acknowledgment, they are monotonically non-decreasing, and the value one
is reported exactly when all N segments have been acknowledged. -/
theorem upload_progress_correct (S P : Nat) (uid : String) (att : Nat → Nat → Bool)
    (hN : 1 ≤ totalParts S P) :
    (runSegments false S P uid att (totalParts S P)
        (List.range' 1 (totalParts S P)) 0).progress =
      (List.range' 1 (ackedCount att (List.range' 1 (totalParts S P)))).map
        (fun j => ((j : Nat) : Rat) / (totalParts S P : Rat)) ∧
    List.Pairwise (fun a b => a ≤ b)
      (runSegments false S P uid att (totalParts S P)
        (List.range' 1 (totalParts S P)) 0).progress ∧
    ((1 : Rat) ∈ (runSegments false S P uid att (totalParts S P)
        (List.range' 1 (totalParts S P)) 0).progress ↔
      ackedCount att (List.range' 1 (totalParts S P)) = totalParts S P) := by
  have hchar : (runSegments false S P uid att (totalParts S P)
      (List.range' 1 (totalParts S P)) 0).progress =
      (List.range' 1 (ackedCount att (List.range' 1 (totalParts S P)))).map
        (fun j => ((j : Nat) : Rat) / (totalParts S P : Rat)) := by
    simpa using runSegments_progress S P uid att (totalParts S P)
      (List.range' 1 (totalParts S P)) 0
  have hk : ackedCount att (List.range' 1 (totalParts S P)) ≤ totalParts S P := by
    have h1 := ackedCount_le att (List.range' 1 (totalParts S P))
    simpa using h1
  have hN0 : ((totalParts S P : Nat) : Rat) ≠ 0 := by
    have : (0 : Nat) < totalParts S P := hN
    positivity
  refine ⟨hchar, ?_, ?_⟩
  · rw [hchar, List.pairwise_map]
    refine (List.pairwise_lt_range' 1 _).imp ?_
    intro a b hab
    have hc : (0 : Rat) ≤ (totalParts S P : Rat) := by positivity
    exact div_le_div_of_nonneg_right (by exact_mod_cast hab.le) hc
  · rw [hchar]
    constructor
    · intro h1
      rw [List.mem_map] at h1
      obtain ⟨j, hj, hfj⟩ := h1
      rw [List.mem_range'_1] at hj
      have hje : ((j : Nat) : Rat) = (totalParts S P : Rat) :=
        (div_eq_one_iff_eq hN0).mp hfj
      have hjn : j = totalParts S P := by exact_mod_cast hje
      omega
    · intro hkN
      rw [List.mem_map]
      refine ⟨totalParts S P, ?_, ?_⟩
      · rw [List.mem_range'_1]
        omega
      · exact (div_eq_one_iff_eq hN0).mpr rfl

/-- Closed instance of claim C3 with three segments, all acknowledged. -/
theorem upload_progress_correct_witness :
    (runSegments false 5 2 "u" (fun _ _ => true) (totalParts 5 2)
        (List.range' 1 (totalParts 5 2)) 0).progress =
      (List.range' 1 (ackedCount (fun _ _ => true) (List.range' 1 (totalParts 5 2)))).map
        (fun j => ((j : Nat) : Rat) / (totalParts 5 2 : Rat)) ∧
    List.Pairwise (fun a b => a ≤ b)
      (runSegments false 5 2 "u" (fun _ _ => true) (totalParts 5 2)
        (List.range' 1 (totalParts 5 2)) 0).progress ∧
    ((1 : Rat) ∈ (runSegments false 5 2 "u" (fun _ _ => true) (totalParts 5 2)
        (List.range' 1 (totalParts 5 2)) 0).progress ↔
      ackedCount (fun _ _ => true) (List.range' 1 (totalParts 5 2)) = totalParts 5 2) :=
  upload_progress_correct 5 2 "u" (fun _ _ => true) (by decide)

lemma runSegments_reqs_segment (S P : Nat) (uid : String)
    (att : Nat → Nat → Bool) (total : Nat) (l : List Nat) (u : Nat) :
    ∀ r ∈ (runSegments false S P uid att total l u).reqs, isSegmentReq r = true := by
  induction l generalizing u with
  | nil => simp [runSegments]
  | cons i rest ih =>
    intro r hr
    cases h : (uploadOneRes (att i)).success with
    | true =>
      simp only [runSegments, uploadOneRun, Bool.false_eq_true, if_false, h,
        if_true, List.mem_append] at hr
      rcases hr with hr | hr
      · rw [List.eq_of_mem_replicate hr]
        rfl
      · exact ih (u + 1) r hr
    | false =>
      simp only [runSegments, uploadOneRun, Bool.false_eq_true, if_false, h] at hr
      rw [List.eq_of_mem_replicate hr]
      rfl

lemma runWithUploadId_segErr (S P : Nat) (env : Env) (reqs0 : List Req) (uid : String)
    (hseg : (runSegments false S P uid env.segAttempt (totalParts S P)
        (List.range' 1 (totalParts S P)) 0).result = SegResult.segErr) :
    runWithUploadId false S P env reqs0 uid =
      ⟨reqs0 ++ (runSegments false S P uid env.segAttempt (totalParts S P)
          (List.range' 1 (totalParts S P)) 0).reqs,
       (runSegments false S P uid env.segAttempt (totalParts S P)
          (List.range' 1 (totalParts S P)) 0).progress,
       [], 0, RunResult.failed "segment failed"⟩ := by
  simp only [runWithUploadId, hseg]

/-- Claim C4: every segment is attempted at most three times, one 400ms
sleep separates consecutive attempts, a segment fails permanently exactly
when its first three attempts fail (and then exactly three attempts were
made), and a run whose segment phase failed permanently never issues the
completion request and rejects. -/
theorem retry_budget_correct (att : Nat → Bool) (S P : Nat) (env : Env) (uid : String)
    (hfail : (runSegments false S P uid env.segAttempt (totalParts S P)
        (List.range' 1 (totalParts S P)) 0).result = SegResult.segErr) :
    (uploadOneRes att).attempts ≤ 3 ∧
    (uploadOneRes att).delays400 = (uploadOneRes att).attempts - 1 ∧
    ((uploadOneRes att).success = false ↔
      (att 0 = false ∧ att 1 = false ∧ att 2 = false)) ∧
    ((uploadOneRes att).success = false → (uploadOneRes att).attempts = 3) ∧
    Req.complete uid ∉ (runWithUploadId false S P env [] uid).reqs ∧
    (runWithUploadId false S P env [] uid).result = RunResult.failed "segment failed" := by
  have hcases : ((uploadOneRes att).attempts ≤ 3 ∧
      (uploadOneRes att).delays400 = (uploadOneRes att).attempts - 1 ∧
      ((uploadOneRes att).success = false ↔
        (att 0 = false ∧ att 1 = false ∧ att 2 = false)) ∧
      ((uploadOneRes att).success = false → (uploadOneRes att).attempts = 3)) := by
    rcases h0 : att 0 <;> rcases h1 : att 1 <;> rcases h2 : att 2 <;>
      simp [uploadOneRes, uploadOneAux, h0, h1, h2]
  refine ⟨hcases.1, hcases.2.1, hcases.2.2.1, hcases.2.2.2, ?_, ?_⟩
  · rw [runWithUploadId_segErr S P env [] uid hfail]
    intro hmem
    have := runSegments_reqs_segment S P uid env.segAttempt (totalParts S P)
      (List.range' 1 (totalParts S P)) 0 (Req.complete uid) (by simpa using hmem)
    simp [isSegmentReq] at this
  · rw [runWithUploadId_segErr S P env [] uid hfail]

/-- Closed instance of claim C4: one segment whose attempts all fail. -/
theorem retry_budget_correct_witness :
    (uploadOneRes (fun _ => false)).attempts ≤ 3 ∧
    (uploadOneRes (fun _ => false)).delays400 =
      (uploadOneRes (fun _ => false)).attempts - 1 ∧
    ((uploadOneRes (fun _ => false)).success = false ↔
      ((fun _ => false : Nat → Bool) 0 = false ∧ (fun _ => false : Nat → Bool) 1 = false ∧
       (fun _ => false : Nat → Bool) 2 = false)) ∧
    ((uploadOneRes (fun _ => false)).success = false →
      (uploadOneRes (fun _ => false)).attempts = 3) ∧
    Req.complete "u" ∉ (runWithUploadId false 1 1 envAllFail [] "u").reqs ∧
    (runWithUploadId false 1 1 envAllFail [] "u").result =
      RunResult.failed "segment failed" :=
  retry_budget_correct (fun _ => false) 1 1 envAllFail "u" (by decide)

/-- Claim C5, counterexample: a run issues its completion and status
requests without registering any AbortController for them, so invoking
cancel does not abort these in-flight operations; the claim that every
in-flight HTTP operation of the run is aborted is false. -/
theorem cancel_abort_gap_cex :
    Req.complete "u" ∈ (startIngestionRun 0 1 false envCancel).reqs ∧
    Req.status "u" ∈ (startIngestionRun 0 1 false envCancel).reqs ∧
    abortedByCancel (Req.complete "u") = false ∧
    abortedByCancel (Req.status "u") = false := by decide

/-- Claim C5 as amended: once the aborted flag is set, (a) a call of
uploadOne issues no request and raises AbortError, so no new segment
upload starts, (b) cancel aborts exactly the requests that registered a
controller, which are precisely the segment uploads (init, completion and
status fetches carry no abort signal), and (c) the polling loop raises
AbortError before fetching, and a cancelled run that reaches the segment
phase rejects with AbortError and issues no segment request. -/
theorem cancel_semantics_amended :
    (∀ S P uid att i, uploadOneRun true S P uid att i = ([], SegResult.abortErr, 0)) ∧
    (∀ uid rs, pollLoop true uid rs = ⟨[], [], 0, PollResult.abortErr⟩) ∧
    (∀ r, abortedByCancel r = isSegmentReq r) ∧
    (∀ S P env uid, env.preflightResult = none → env.initResp.ok = true →
      env.initResp.existsFlag = false → env.initResp.uploadId = some uid → uid ≠ "" →
      0 < totalParts S P →
      (startIngestionRun S P true env).result = RunResult.abortErr ∧
      (startIngestionRun S P true env).reqs.countP isSegmentReq = 0) := by
  refine ⟨?_, ?_, ?_, ?_⟩
  · intro S P uid att i
    simp [uploadOneRun]
  · intro uid rs
    simp [pollLoop]
  · intro r
    cases r <;> rfl
  · intro S P env uid h1 h2 h3 h4 h5 h6
    have hrun : startIngestionRun S P true env = runWithUploadId true S P env [Req.init] uid := by
      simp only [startIngestionRun, h1]
      simp [h2, h3, h4, h5]
    cases hv : totalParts S P with
    | zero => omega
    | succ k =>
      have hseg : runSegments true S P uid env.segAttempt (totalParts S P)
          (List.range' 1 (totalParts S P)) 0 = ⟨[], [], SegResult.abortErr⟩ := by
        rw [hv, List.range'_succ]
        simp [runSegments, uploadOneRun]
      have hred : runWithUploadId true S P env [Req.init] uid =
          ⟨[Req.init] ++ [], [], [], 0, RunResult.abortErr⟩ := by
        simp only [runWithUploadId, hseg]
      rw [hrun, hred]
      constructor
      · rfl
      · rfl

/-- Closed instance of the amended claim C5 on a concrete cancelled run. -/
theorem cancel_semantics_amended_witness :
    (startIngestionRun 1 1 true envCancel).result = RunResult.abortErr ∧
    (startIngestionRun 1 1 true envCancel).reqs.countP isSegmentReq = 0 :=
  cancel_semantics_amended.2.2.2 1 1 envCancel "u" rfl rfl rfl rfl
    (by decide) (by decide)

/-- Claim C7, counterexample: polling ends FAILED with remote message boom,
the rejection embeds the message, but the task state written by the
pipeline catch is the fixed string, not the remote message, so the state
is not Error transcode boom. -/
theorem failed_message_cex :
    (startIngestionRun 0 1 false envBoom).result =
      RunResult.failed "server stage: FAILED boom" ∧
    pipelineFinalState (startIngestionRun 0 1 false envBoom).result =
      some (TaskState.error ErrKind.transcode "服务器处理失败") ∧
    some (TaskState.error ErrKind.transcode "服务器处理失败") ≠
      some (TaskState.error ErrKind.transcode "boom") := by decide

/-- Claim C7 as amended: when polling ends at a first FAILED observation
carrying a remote message, the promise rejects with an error whose text
embeds that message verbatim, but the task reaches Error transcode with
the fixed snackbar message, not the remote one. -/
theorem failed_message_amended (S P : Nat) (env : Env) (uid : String)
    (pre : List StatusResp) (r : StatusResp) (rest : List StatusResp) (msg : String)
    (hpf : env.preflightResult = none)
    (hok : env.initResp.ok = true) (hex : env.initResp.existsFlag = false)
    (hid : env.initResp.uploadId = some uid) (hne : uid ≠ "")
    (hcomp : env.completeOk = true)
    (hseg : (runSegments false S P uid env.segAttempt (totalParts S P)
        (List.range' 1 (totalParts S P)) 0).result = SegResult.ok)
    (hrs : env.statusResps = pre ++ r :: rest)
    (hpre : ∀ q ∈ pre, isTerminalStage q.stage = false)
    (hst : r.stage = "FAILED") (hmsg : r.message = some msg) :
    (startIngestionRun S P false env).result =
      RunResult.failed ("server stage: FAILED " ++ msg) ∧
    pipelineFinalState (startIngestionRun S P false env).result =
      some (TaskState.error ErrKind.transcode "服务器处理失败") := by
  have hrun : startIngestionRun S P false env =
      runWithUploadId false S P env [Req.init] uid := by
    simp only [startIngestionRun, hpf]
    simp [hok, hex, hid, hne]
  have hpoll : (pollGo uid env.statusResps).result =
      PollResult.failed ("server stage: FAILED " ++ msg) := by
    rw [hrs, pollGo_skipIntermediate uid pre (r :: rest) hpre]
    simp [pollGo, hst, hmsg]
  have hresult : (startIngestionRun S P false env).result =
      RunResult.failed ("server stage: FAILED " ++ msg) := by
    rw [hrun]
    simp only [runWithUploadId, hseg, hcomp, pollLoop, Bool.false_eq_true, if_false,
      if_true]
    rw [hpoll]
  refine ⟨hresult, ?_⟩
  rw [hresult]
  rfl

/-- Closed instance of the amended claim C7 on the boom script. -/
theorem failed_message_amended_witness :
    (startIngestionRun 0 1 false envBoom).result =
      RunResult.failed ("server stage: FAILED " ++ "boom") ∧
    pipelineFinalState (startIngestionRun 0 1 false envBoom).result =
      some (TaskState.error ErrKind.transcode "服务器处理失败") :=
  failed_message_amended 0 1 envBoom "u" [] ⟨"FAILED", 0, none, some "boom"⟩ [] "boom"
    rfl rfl rfl rfl (by decide) rfl (by decide) rfl (by simp) rfl rfl

/-- Claim C8, counterexample: on the scripted stage sequence the observed
states also contain a Transcoding state written for MERGING and the
Transcoding state written for DONE, so the sequence is not exactly
Waiting, Transcoding 0.3, Transcoding 0.9, Finished. -/
theorem scripted_sequence_cex :
    TaskState.transcoding 0 ∈ statesAfterUpload 0 1 envScripted ∧
    TaskState.transcoding 1 ∈ statesAfterUpload 0 1 envScripted ∧
    statesAfterUpload 0 1 envScripted ≠
      [TaskState.waiting WaitKind.server (some "排队中"),
       TaskState.transcoding (3 / 10), TaskState.transcoding (9 / 10),
       TaskState.finished "d"] := by
  have h : statesAfterUpload 0 1 envScripted =
      [TaskState.waiting WaitKind.server (some "排队中"),
       TaskState.transcoding 0, TaskState.transcoding (3 / 10),
       TaskState.transcoding (9 / 10), TaskState.transcoding 1,
       TaskState.finished "d"] := by
    simp [statesAfterUpload, startIngestionRun, envScripted, runWithUploadId,
      runSegments, totalParts, pollLoop, pollGo, pipelineStageState,
      pipelineFinalState, List.range']
  rw [h]
  refine ⟨by simp, by simp, by simp⟩

/-- Claim C8 as amended: on the scripted sequence QUEUED, MERGING,
TRANSCODING 0.3, TRANSCODING 0.9, DONE the observed states after the
upload are Waiting server, Transcoding 0 (from MERGING), Transcoding 0.3,
Transcoding 0.9, Transcoding 1 (from DONE), Finished. -/
theorem scripted_sequence_amended :
    statesAfterUpload 0 1 envScripted =
      [TaskState.waiting WaitKind.server (some "排队中"),
       TaskState.transcoding 0, TaskState.transcoding (3 / 10),
       TaskState.transcoding (9 / 10), TaskState.transcoding 1,
       TaskState.finished "d"] := by
  simp [statesAfterUpload, startIngestionRun, envScripted, runWithUploadId,
    runSegments, totalParts, pollLoop, pollGo, pipelineStageState,
    pipelineFinalState, List.range']

lemma getStage_setStage_ne (m : List (String × String)) (t t2 s2 : String)
    (h : ¬ t2 = t) : getStage (setStage m t2 s2) t = getStage m t := by
  induction m with
  | nil => simp [setStage, getStage, h]
  | cons e rest ih =>
    by_cases he : e.1 = t2
    · simp [setStage, getStage, he, h]
    · simp [setStage, getStage, he, ih]

lemma getStage_setStage_self (m : List (String × String)) (t s : String) :
    getStage (setStage m t s) t = some s := by
  induction m with
  | nil => simp [setStage, getStage]
  | cons e rest ih =>
    by_cases he : e.1 = t
    · simp [setStage, getStage, he]
    · simp [setStage, getStage, he, ih]

lemma handleStageChange_preserves_done (m : List (String × String))
    (title t2 s2 : String) (h : getStage m title = some "DONE") :
    getStage (handleStageChange m t2 s2) title = some "DONE" := by
  unfold handleStageChange
  by_cases hd : getStage m t2 = some "DONE"
  · rw [if_pos hd]
    exact h
  · rw [if_neg hd]
    by_cases ht : t2 = title
    · subst ht
      exact absurd h hd
    · rw [getStage_setStage_ne m title t2 s2 ht]
      exact h

lemma foldl_preserves_done (updates : List (String × String)) :
    ∀ m title, getStage m title = some "DONE" →
    getStage (updates.foldl (fun acc u => handleStageChange acc u.1 u.2) m) title =
      some "DONE" := by
  induction updates with
  | nil =>
    intro m title h
    simpa using h
  | cons u rest ih =>
    intro m title h
    simp only [List.foldl_cons]
    exact ih _ title (handleStageChange_preserves_done m title u.1 u.2 h)

/-- Claim C9: a registry entry holding DONE is never overwritten by any
later sequence of stage reports for any titles, while an entry not
holding DONE is overwritten by the next report for its title
(last-write-wins). -/
theorem stage_registry_correct (m m2 : List (String × String))
    (title title2 s2 : String) (updates : List (String × String))
    (h1 : getStage m title = some "DONE")
    (h2 : ¬ getStage m2 title2 = some "DONE") :
    getStage (updates.foldl (fun acc u => handleStageChange acc u.1 u.2) m) title =
      some "DONE" ∧
    getStage (handleStageChange m2 title2 s2) title2 = some s2 := by
  refine ⟨foldl_preserves_done updates m title h1, ?_⟩
  unfold handleStageChange
  rw [if_neg h2]
  exact getStage_setStage_self m2 title2 s2

/-- Closed instance of claim C9 on a concrete registry. -/
theorem stage_registry_correct_witness :
    getStage ([("a", "QUEUED"), ("b", "FOO")].foldl
        (fun acc u => handleStageChange acc u.1 u.2) [("a", "DONE")]) "a" =
      some "DONE" ∧
    getStage (handleStageChange [("a", "DONE")] "b" "MERGING") "b" = some "MERGING" :=
  stage_registry_correct [("a", "DONE")] [("a", "DONE")] "a" "b" "MERGING"
    [("a", "QUEUED"), ("b", "FOO")] (by decide) (by decide)

lemma pollGo_reqs_status (uid : String) (rs : List StatusResp) :
    ∀ r ∈ (pollGo uid rs).reqs, r = Req.status uid := by
  induction rs with
  | nil => simp [pollGo]
  | cons q rest ih =>
    intro r hr
    simp only [pollGo] at hr
    split at hr
    · simpa using hr
    · split at hr
      · simpa using hr
      · rcases List.mem_cons.mp hr with hr | hr
        · exact hr
        · exact ih r hr

lemma pollGo_status_mem (uid : String) (rs : List StatusResp) (h : rs ≠ []) :
    Req.status uid ∈ (pollGo uid rs).reqs := by
  cases rs with
  | nil => exact absurd rfl h
  | cons q rest =>
    simp only [pollGo]
    split
    · simp
    · split
      · simp
      · simp

/-- Claim C10: for an empty payload the computed segment count is zero, a
run issues no segment request and reports no upload progress, yet it still
issues the completion call and proceeds to status polling. -/
theorem empty_payload_run (P : Nat) (uid : String) (env : Env) (hP : 0 < P)
    (hpf : env.preflightResult = none)
    (hok : env.initResp.ok = true) (hex : env.initResp.existsFlag = false)
    (hid : env.initResp.uploadId = some uid) (hne : uid ≠ "")
    (hcomp : env.completeOk = true) (hrs : env.statusResps ≠ []) :
    totalParts 0 P = 0 ∧
    (startIngestionRun 0 P false env).reqs.countP isSegmentReq = 0 ∧
    (startIngestionRun 0 P false env).progress = [] ∧
    Req.complete uid ∈ (startIngestionRun 0 P false env).reqs ∧
    Req.status uid ∈ (startIngestionRun 0 P false env).reqs := by
  have htp : totalParts 0 P = 0 := by
    have he : 0 + P - 1 = P - 1 := by omega
    unfold totalParts
    rw [he]
    exact Nat.div_eq_of_lt (by omega)
  have hrun : startIngestionRun 0 P false env =
      runWithUploadId false 0 P env [Req.init] uid := by
    simp only [startIngestionRun, hpf]
    simp [hok, hex, hid, hne]
  have hseg0 : runSegments false 0 P uid env.segAttempt (totalParts 0 P)
      (List.range' 1 (totalParts 0 P)) 0 = ⟨[], [], SegResult.ok⟩ := by
    rw [htp]
    rfl
  have hw : runWithUploadId false 0 P env [Req.init] uid =
      ⟨([Req.init] ++ [] ++ [Req.complete uid]) ++ (pollGo uid env.statusResps).reqs,
       [], (pollGo uid env.statusResps).stages, (pollGo uid env.statusResps).sleeps1000,
       match (pollGo uid env.statusResps).result with
       | PollResult.done dl => RunResult.ok (some uid) dl
       | PollResult.failed m => RunResult.failed m
       | PollResult.abortErr => RunResult.abortErr
       | PollResult.pending => RunResult.pending⟩ := by
    simp only [runWithUploadId, hseg0, hcomp, if_true, pollLoop, Bool.false_eq_true,
      if_false]
  refine ⟨htp, ?_, ?_, ?_, ?_⟩
  · rw [hrun, hw]
    rw [List.countP_eq_zero]
    intro r hr
    rcases List.mem_append.mp hr with hr1 | hr2
    · have hcase : r = Req.init ∨ r = Req.complete uid := by
        simpa using hr1
      rcases hcase with rfl | rfl
      · simp [isSegmentReq]
      · simp [isSegmentReq]
    · rw [pollGo_reqs_status uid env.statusResps r hr2]
      simp [isSegmentReq]
  · rw [hrun, hw]
  · rw [hrun, hw]
    simp
  · rw [hrun, hw]
    simp only [List.mem_append]
    right
    exact pollGo_status_mem uid env.statusResps hrs

/-- Closed instance of claim C10 on a concrete environment. -/
theorem empty_payload_run_witness :
    totalParts 0 8 = 0 ∧
    (startIngestionRun 0 8 false envEmptyPayload).reqs.countP isSegmentReq = 0 ∧
    (startIngestionRun 0 8 false envEmptyPayload).progress = [] ∧
    Req.complete "u" ∈ (startIngestionRun 0 8 false envEmptyPayload).reqs ∧
    Req.status "u" ∈ (startIngestionRun 0 8 false envEmptyPayload).reqs :=
  empty_payload_run 8 "u" envEmptyPayload (by decide) rfl rfl rfl rfl (by decide)
    rfl (by simp [envEmptyPayload])
